import Mathlib

/-!
Verification of the SchemeLink OCR scanner core (`src/OcrScanner.jsx`).

The JavaScript text-processing helpers are embedded shallowly over
`List Char` (JS strings on the relevant inputs are sequences of BMP code
points, one UTF-16 unit each).  Regex-based extraction rules are embedded
as explicit character-level matchers with the same leftmost-match and
greedy/backtracking behaviour as the source patterns; where a quantifier
is deterministic (the character classes on either side are disjoint) the
matcher takes the maximal run directly.
-/

namespace OcrScanner

abbrev Str := List Char

-- Character classes of the source regexes, by ASCII code point:
-- [A-Z], [a-z], [A-Za-z], [0-9].
def isUpperA (c : Char) : Bool := 65 ≤ c.toNat && c.toNat ≤ 90

def isLowerA (c : Char) : Bool := 97 ≤ c.toNat && c.toNat ≤ 122

def isAlphaA (c : Char) : Bool := isUpperA c || isLowerA c

def isDigitA (c : Char) : Bool := 48 ≤ c.toNat && c.toNat ≤ 57

-- Character classes.  JS regex classes [A-Za-z], [0-9], \s and \w are
-- ASCII-only (no `u` flag is used in the source), as are `toLowerCase`
-- and `toUpperCase` on the texts involved.
def isWs (c : Char) : Bool :=
  c == ' ' || c == '\t' || c == '\n' || c == '\r' ||
  c == (Char.ofNat 11) || c == (Char.ofNat 12)

def isWordC (c : Char) : Bool := isAlphaA c || isDigitA c || c == '_'

def lcChar (c : Char) : Char := if isUpperA c then Char.ofNat (c.toNat + 32) else c

def ucChar (c : Char) : Char := if isLowerA c then Char.ofNat (c.toNat - 32) else c

def lcStr (l : Str) : Str := l.map lcChar

-- `String.prototype.trim`.
def jsTrim (l : Str) : Str := ((l.dropWhile isWs).reverse.dropWhile isWs).reverse

-- `String.prototype.includes` (substring search).
def isPfx : Str → Str → Bool
  | [], _ => true
  | _ :: _, [] => false
  | a :: as, b :: bs => a == b && isPfx as bs

def jsIncludes : Str → Str → Bool
  | [], needle => isPfx needle []
  | c :: t, needle => isPfx needle (c :: t) || jsIncludes t needle

def hasChar (l : Str) (c : Char) : Bool := l.any (fun d => d == c)

-- `split(sep)` for a one-character separator, keeping empty pieces.
def jsSplitChar (sep : Char) : Str → List Str
  | [] => [[]]
  | c :: rest =>
    if c == sep then [] :: jsSplitChar sep rest
    else
      match jsSplitChar sep rest with
      | [] => [[c]]
      | s :: ss => (c :: s) :: ss

-- `split(/\r?\n/)`.
def splitLinesRN : Str → List Str
  | [] => [[]]
  | '\r' :: '\n' :: rest => [] :: splitLinesRN rest
  | '\n' :: rest => [] :: splitLinesRN rest
  | c :: rest =>
    match splitLinesRN rest with
    | [] => [[c]]
    | s :: ss => (c :: s) :: ss

-- `split(/\s+/)`: pieces between maximal whitespace runs (with the JS
-- empty pieces at the two ends when the string starts/ends in whitespace).
mutual

def wordsAux : Str → Str → List Str
  | acc, [] => [acc.reverse]
  | acc, c :: cs => if isWs c then acc.reverse :: afterSep cs else wordsAux (c :: acc) cs

def afterSep : Str → List Str
  | [] => [[]]
  | c :: cs => if isWs c then afterSep cs else wordsAux [c] cs

end

def jsSplitWs (l : Str) : List Str := wordsAux [] l

-- Lines of a region text: split, trim each, drop falsy (empty) lines.
def splitTrimFilter (t : Str) : List Str :=
  ((splitLinesRN t).map jsTrim).filter (fun l => !l.isEmpty)

-- The BLACKLIST constant of the source, entry for entry.
def BLACKLIST : List Str :=
  ["government".data, "govt".data, "aadhaar".data, "aadhar".data, "आधार".data, "uidai".data,
   "unique identification".data, "india".data, "இந்திய".data, "அரசாங்கம்".data,
   "issue date".data, "issue".data, "enrolment".data, "enrollment".data, "address".data,
   "mobile".data, "phone".data, "dob".data, "date of birth".data, "பிறந்த".data,
   "male".data, "female".data, "ஆண்".data, "பெண்".data, "help".data, "1800".data,
   "www".data, "http".data,
   "time".data, "belated".data, "epsom".data, "solited".data, "huet".data, "ipe".data,
   "tan".data, "bbm".data,
   "sei".data, "sam".data, "icici".data, "ligpibg".data, "sotlingd".data, "siren".data,
   "ipibg".data, "agsimuned".data,
   "proof".data, "identity".data, "citizenship".data, "authentication".data, "election".data,
   "commission".data,
   "elector".data, "photo".data, "birth".data, "date".data, "age".data, "father".data,
   "soundar".data]

-- Replacement of `/\s+\d{1,2}$/` by the empty string: the pattern matches
-- exactly when the string ends in a run of one or two digits preceded by
-- at least one whitespace character, and removes that digit run together
-- with the whole contiguous whitespace run before it.
def stripTrailTok (l : Str) : Str :=
  let r := l.reverse
  let ds := r.takeWhile isDigitA
  if 1 ≤ ds.length && ds.length ≤ 2 then
    let r2 := r.dropWhile isDigitA
    if !(r2.takeWhile isWs).isEmpty then (r2.dropWhile isWs).reverse else l
  else l

-- Shared head of `isName` and `smartTitle`: strip leading non-letters
-- (`/^[^A-Za-z]+/` → ""), trim, strip a trailing digit token, trim.
def nameCore (line : Str) : Str :=
  jsTrim (stripTrailTok (jsTrim (line.dropWhile (fun c => !isAlphaA c))))

-- Test of `/^[A-Za-z][A-Za-z\s.]+$/`.
def nameShapeOk (t : Str) : Bool :=
  match t with
  | [] => false
  | c :: rest =>
    isAlphaA c && !rest.isEmpty && rest.all (fun d => isAlphaA d || isWs d || d == '.')

def isName (line : Str) : Bool :=
  let t := nameCore line
  let low := lcStr t
  if BLACKLIST.any (fun b => jsIncludes low b) then false
  else if !nameShapeOk t then false
  else if t.length < 4 || t.length > 50 then false
  else
    let ws := jsSplitWs t
    if ws.length ≥ 2 then ws.any (fun w => (w.filter (fun c => c != '.')).length ≥ 3)
    else
      match ws with
      | w :: _ => w.length ≥ 6
      | [] => false  -- unreachable: the shape test guarantees a leading letter

def titleWord (w : Str) : Str :=
  let c := w.filter (fun d => d != '.')
  if c.length ≤ 2 then w.map ucChar
  else
    match w with
    | [] => []  -- unreachable: split words are nonempty here
    | a :: rest => ucChar a :: lcStr rest

def joinSp : List Str → Str
  | [] => []
  | [w] => w
  | w :: ws => w ++ ' ' :: joinSp ws

def smartTitle (line : Str) : Str :=
  joinSp ((jsSplitWs (nameCore line)).map titleWord)

-- `parseInt(s, 10)`: skip whitespace, optional sign, maximal digit run;
-- `none` models the JS result NaN.
def jsParseInt (s : Str) : Option Int :=
  let t := s.dropWhile isWs
  let sgn : Int := match t with | '-' :: _ => -1 | _ => 1
  let t2 : Str := match t with | '-' :: r => r | '+' :: r => r | _ => t
  let ds := t2.takeWhile isDigitA
  if ds.isEmpty then none
  else some (sgn * (ds.foldl (fun a c => a * 10 + (c.toNat - 48)) (0 : Nat) : Nat))

-- `padStart(2, "0")`.
def padStart2 (s : Str) : Str :=
  if s.length ≥ 2 then s else if s.length = 1 then '0' :: s else ['0', '0']

-- The DOB sanitizer, split into the separator choice and the body on
-- the chosen separator.  The year check is `y < 1900 || y > 2020` on the
-- `parseInt` result: when that result is NaN both comparisons are false,
-- so a non-numeric year component is not rejected.
def sanitizeWith (sep : Char) (raw : Str) : Option Str :=
  match jsSplitChar sep raw with
  | [p0, p1, p2] =>
    if (match jsParseInt p2 with
        | some v => v < 1900 || v > 2020
        | none => false) then none
    else some (padStart2 p0 ++ '/' :: padStart2 p1 ++ '/' :: p2)
  | _ => none

def dobSep (raw : Str) : Char :=
  if hasChar raw '/' then '/' else if hasChar raw '-' then '-' else '.'

def sanitizeDob (raw : Str) : Option Str := sanitizeWith (dobSep raw) raw

-- Gender extractor: `/\b(Male|Female|MALE|FEMALE|ஆண்பால்|பெண்பால்|ஆண்|பெண்)\b/`
-- (no `i` flag).  Each alternative is a fixed literal; the scan is
-- leftmost, at each position trying the alternatives in source order,
-- with JS word boundaries (`\w` is ASCII, so Tamil characters are
-- non-word characters).
def genderTokens : List Str :=
  ["Male".data, "Female".data, "MALE".data, "FEMALE".data,
   "ஆண்பால்".data, "பெண்பால்".data, "ஆண்".data, "பெண்".data]

-- Exact-case literal at the head of `l`, returning the rest.
def litPfx : Str → Str → Option Str
  | [], l => some l
  | _ :: _, [] => none
  | p :: ps, c :: cs => if c == p then litPfx ps cs else none

def wordOpt : Option Char → Bool
  | some c => isWordC c
  | none => false

-- One alternative at one position: the literal must be present with a
-- word boundary on each side.
def tokenAt (prev : Option Char) (l : Str) (tok : Str) : Bool :=
  match tok with
  | [] => false
  | t0 :: _ =>
    (wordOpt prev != isWordC t0) &&
    (match litPfx tok l with
     | none => false
     | some rest => isWordC (tok.getLastD ' ') != wordOpt rest.head?)

def firstTok : List Str → Option Char → Str → Option Str
  | [], _, _ => none
  | t :: ts, prev, l => if tokenAt prev l t then some t else firstTok ts prev l

def scanGender : Option Char → Str → Option Str
  | _, [] => none
  | prev, c :: cs =>
    match firstTok genderTokens prev (c :: cs) with
    | some t => some t
    | none => scanGender (some c) cs

-- Normalization `m[1].toLowerCase().startsWith("m")`.
def extractGender (text : Str) : Str :=
  match scanGender none text with
  | none => "Not found".data
  | some m => if isPfx "m".data (lcStr m) then "Male".data else "Female".data

-- Voter card pattern `\b([A-Z]{2,4}\d{6,10})\b`.  At a boundary
-- position the uppercase run must have length 2..4 (a shorter take
-- leaves an uppercase letter where a digit is required), the digit run
-- after it length 6..10, and the following character must not be a word
-- character.
def voterCardAt (l : Str) : Option Str :=
  let ls := l.takeWhile isUpperA
  if 2 ≤ ls.length && ls.length ≤ 4 then
    let r := l.dropWhile isUpperA
    let ds := r.takeWhile isDigitA
    if 6 ≤ ds.length && ds.length ≤ 10 then
      match r.dropWhile isDigitA with
      | [] => some (ls ++ ds)
      | c :: _ => if isWordC c then none else some (ls ++ ds)
    else none
  else none

def bOk (prev : Option Char) : Bool := !(wordOpt prev)

def voterCardScan : Option Char → Str → Option Str
  | _, [] => none
  | prev, c :: cs =>
    match (if bOk prev then voterCardAt (c :: cs) else none) with
    | some m => some m
    | none => voterCardScan (some c) cs

-- Grouped 12-digit test `\b\d{4}\s?\d{4}\s?\d{4}\b` (used by the
-- classifier fallback).
def take4Digits (l : Str) : Option Str :=
  match l with
  | a :: b :: c :: d :: rest =>
    if isDigitA a && isDigitA b && isDigitA c && isDigitA d then some rest else none
  | _ => none

def skipWs01 (l : Str) : Str :=
  match l with
  | c :: cs => if isWs c then cs else l
  | [] => l

def grouped12At (l : Str) : Bool :=
  match take4Digits l with
  | none => false
  | some r1 =>
    match take4Digits (skipWs01 r1) with
    | none => false
    | some r2 =>
      match take4Digits (skipWs01 r2) with
      | none => false
      | some r3 =>
        match r3 with
        | [] => true
        | c :: _ => !isWordC c

def grouped12Scan : Option Char → Str → Bool
  | _, [] => false
  | prev, c :: cs =>
    if bOk prev && grouped12At (c :: cs) then true else grouped12Scan (some c) cs

inductive DocType where
  | voter
  | aadhaar
  | unknown
deriving DecidableEq, Repr

-- Document classifier.
def detectDocType (text : Str) : DocType :=
  let lower := lcStr text
  if jsIncludes lower "election".data || jsIncludes lower "elector".data
     || jsIncludes lower "voter".data then .voter
  else if jsIncludes lower "aadhaar".data || jsIncludes lower "aadhar".data
     || jsIncludes lower "uidai".data
     || jsIncludes lower "government of india".data then .aadhaar
  else if (voterCardScan none text).isSome then .voter
  else if grouped12Scan none text then .aadhaar
  else .unknown

-- Aadhaar number `\b(\d{4})\s{0,6}(\d{4})\s{0,6}(\d{4})\b` with its
-- three captured groups.  `\s{0,6}` followed by `\d` forces the whole
-- (maximal) whitespace run, which therefore must have length at most 6.
def grab4 (l : Str) : Option (Str × Str) :=
  match l with
  | a :: b :: c :: d :: rest =>
    if isDigitA a && isDigitA b && isDigitA c && isDigitA d then some ([a, b, c, d], rest)
    else none
  | _ => none

def skipWs06 (l : Str) : Option Str :=
  if (l.takeWhile isWs).length ≤ 6 then some (l.dropWhile isWs) else none

def aadhaarNumAt (l : Str) : Option (Str × Str × Str) :=
  (grab4 l).bind fun g1r =>
  (skipWs06 g1r.2).bind fun r1 =>
  (grab4 r1).bind fun g2r =>
  (skipWs06 g2r.2).bind fun r2 =>
  (grab4 r2).bind fun g3r =>
  match g3r.2 with
  | [] => some (g1r.1, g2r.1, g3r.1)
  | c :: _ => if isWordC c then none else some (g1r.1, g2r.1, g3r.1)

def aadhaarNumScan : Option Char → Str → Option (Str × Str × Str)
  | _, [] => none
  | prev, c :: cs =>
    match (if bOk prev then aadhaarNumAt (c :: cs) else none) with
    | some g => some g
    | none => aadhaarNumScan (some c) cs

-- Case-insensitive literal (ASCII folding, as with the source's `/i`
-- patterns over ASCII and Tamil characters), returning the rest.
def matchLit : Str → Str → Option Str
  | [], l => some l
  | _ :: _, [] => none
  | p :: ps, c :: cs => if lcChar c == lcChar p then matchLit ps cs else none

-- Date core `\d{1,2}[\-\/\.]\d{1,2}[\-\/\.]\d{4}`.  Day/month: the
-- maximal digit run must have length 1 or 2 (a shorter take leaves a
-- digit where the separator is required); the year takes the first four
-- digits (tier 1 and 2 have no trailing boundary).
def dateSep (c : Char) : Bool := c == '-' || c == '/' || c == '.'

def matchDayMonth (l : Str) : Option (Str × Char × Str) :=
  let ds := l.takeWhile isDigitA
  if 1 ≤ ds.length && ds.length ≤ 2 then
    match l.dropWhile isDigitA with
    | c :: cs => if dateSep c then some (ds, c, cs) else none
    | [] => none
  else none

def matchDateCore (l : Str) : Option (Str × Str) :=
  (matchDayMonth l).bind fun d1 =>
  (matchDayMonth d1.2.2).bind fun d2 =>
  match d2.2.2 with
  | a :: b :: c :: d :: rest =>
    if isDigitA a && isDigitA b && isDigitA c && isDigitA d then
      some (d1.1 ++ d1.2.1 :: d2.1 ++ d2.2.1 :: [a, b, c, d], rest)
    else none
  | _ => none

-- Tier 1 label `(?:DOB|D0B|Date\s*of\s*Birth|Age)` (`/i`): the
-- alternatives are pairwise incompatible at any one position, so a
-- first-success try is faithful.
def matchDateOfBirth (l : Str) : Option Str :=
  (matchLit "date".data l).bind fun r1 =>
  (matchLit "of".data (r1.dropWhile isWs)).bind fun r2 =>
  matchLit "birth".data (r2.dropWhile isWs)

def matchDobLabelAt (l : Str) : Option Str :=
  match matchLit "dob".data l with
  | some r => some r
  | none =>
    match matchLit "d0b".data l with
    | some r => some r
    | none =>
      match matchDateOfBirth l with
      | some r => some r
      | none => matchLit "age".data l

-- `\s*[:/\-\s]+` before the date: one or more characters of the class
-- (the class contains `\s`), and the digit that follows is not in the
-- class, so the maximal run is forced.
def sepClass (c : Char) : Bool := c == ':' || c == '/' || c == '-' || isWs c

def tier1At (l : Str) : Option Str :=
  (matchDobLabelAt l).bind fun r =>
  if (r.takeWhile sepClass).isEmpty then none
  else (matchDateCore (r.dropWhile sepClass)).map Prod.fst

def tier1Scan : Str → Option Str
  | [] => none
  | c :: cs =>
    match tier1At (c :: cs) with
    | some d => some d
    | none => tier1Scan cs

-- Tier 2 `(?:பிறந்த\s*நாள்|பிறந்த)\s*[:/\-]?\s*(date)`: when the longer
-- alternative matches, the shorter one's continuation cannot (the date
-- would have to start at the following Tamil letter), so trying the
-- longer alternative first is faithful.
def tamilSepSkip (r : Str) : Str :=
  let r1 := r.dropWhile isWs
  let r2 : Str :=
    match r1 with
    | c :: cs => if c == ':' || c == '/' || c == '-' then cs else r1
    | [] => r1
  r2.dropWhile isWs

def tier2At (l : Str) : Option Str :=
  (matchLit "பிறந்த".data l).bind fun r =>
  let rest :=
    match matchLit "நாள்".data (r.dropWhile isWs) with
    | some r2 => r2
    | none => r
  (matchDateCore (tamilSepSkip rest)).map Prod.fst

def tier2Scan : Str → Option Str
  | [] => none
  | c :: cs =>
    match tier2At (c :: cs) with
    | some d => some d
    | none => tier2Scan cs

-- Tier 3 per-line pattern `\b(\d{1,2}[\-\/\.]\d{1,2}[\-\/\.]\d{4})\b`
-- with the `g` flag: all non-overlapping matches, scanning resumes after
-- each match.
def dateBAt (l : Str) : Option (Str × Str) :=
  (matchDayMonth l).bind fun d1 =>
  (matchDayMonth d1.2.2).bind fun d2 =>
  match d2.2.2 with
  | a :: b :: c :: d :: rest =>
    if isDigitA a && isDigitA b && isDigitA c && isDigitA d then
      match rest with
      | [] => some (d1.1 ++ d1.2.1 :: d2.1 ++ d2.2.1 :: [a, b, c, d], rest)
      | e :: _ =>
        if isWordC e then none
        else some (d1.1 ++ d1.2.1 :: d2.1 ++ d2.2.1 :: [a, b, c, d], rest)
    else none
  | _ => none

-- Fuel-indexed scan (each step consumes at least one character, so fuel
-- `l.length + 1` is never exhausted).
def dateScanAux : Nat → Option Char → Str → List Str
  | 0, _, _ => []
  | _ + 1, _, [] => []
  | fuel + 1, prev, c :: cs =>
    match (if bOk prev then dateBAt (c :: cs) else none) with
    | some dr => dr.1 :: dateScanAux fuel (dr.1.getLastD ' ' |> some) dr.2
    | none => dateScanAux fuel (some c) cs

def dateMatches (l : Str) : List Str := dateScanAux (l.length + 1) none l

def firstSanitized : List Str → Option Str
  | [] => none
  | d :: ds =>
    match sanitizeDob d with
    | some s => some s
    | none => firstSanitized ds

def lineHasIssue (l : Str) : Bool := jsIncludes (lcStr l) "issue".data

def tier3 : List Str → Option Str
  | [] => none
  | line :: rest =>
    if lineHasIssue line then tier3 rest
    else
      match firstSanitized (dateMatches line) with
      | some s => some s
      | none => tier3 rest

-- The three-tier DOB extractor.  A tier whose regex matched but whose
-- candidate failed sanitization falls through to the next tier, as in
-- the source.
def extractDobFromLines (text : Str) (lines : List Str) : Str :=
  match (tier1Scan text).bind sanitizeDob with
  | some s => s
  | none =>
    match (tier2Scan text).bind sanitizeDob with
    | some s => s
    | none =>
      match tier3 lines with
      | some s => s
      | none => "Not found".data

-- Voter name pattern `[Nn]ame.{0,3}([A-Z][a-z]+(?:\s+[A-Z][a-z]?)+)`,
-- applied per line.  `[a-z]+` and `\s+` are forced to their maximal
-- runs (the follow-up classes are disjoint); the group repeats greedily
-- and stops at its last full iteration; `.{0,3}` tries the longest
-- longest run of dot-characters first.
def dotChar (c : Char) : Bool := c != '\n' && c != '\r'

def nameGroupOnce (l : Str) : Option (Str × Str) :=
  let w := l.takeWhile isWs
  if w.isEmpty then none
  else
    match l.dropWhile isWs with
    | u :: us =>
      if isUpperA u then
        match us with
        | v :: vs => if isLowerA v then some (w ++ [u, v], vs) else some (w ++ [u], us)
        | [] => some (w ++ [u], [])
      else none
    | [] => none

def nameGroupsAux : Nat → Str → Option (Str × Str)
  | 0, _ => none
  | fuel + 1, l =>
    match nameGroupOnce l with
    | none => none
    | some sr =>
      match nameGroupsAux fuel sr.2 with
      | some mr => some (sr.1 ++ mr.1, mr.2)
      | none => some sr

def nameCapAt (l : Str) : Option Str :=
  match l with
  | c :: cs =>
    if isUpperA c then
      let low := cs.takeWhile isLowerA
      if low.isEmpty then none
      else
        match nameGroupsAux (l.length + 1) (cs.dropWhile isLowerA) with
        | none => none
        | some g => some (c :: low ++ g.1)
    else none
  | [] => none

def tryDots : Nat → Str → Option Str
  | 0, l => nameCapAt l
  | k + 1, l =>
    match l with
    | c :: cs =>
      if dotChar c then
        match tryDots k cs with
        | some r => some r
        | none => nameCapAt l
      else nameCapAt l
    | [] => nameCapAt l

def voterNameAt (l : Str) : Option Str :=
  match l with
  | c :: cs =>
    if c == 'N' || c == 'n' then
      match litPfx "ame".data cs with
      | none => none
      | some r => tryDots 3 r
    else none
  | [] => none

def voterNameScan : Str → Option Str
  | [] => none
  | c :: cs =>
    match voterNameAt (c :: cs) with
    | some m => some m
    | none => voterNameScan cs

-- Name loop: first line not matching `/father|soundar/i` whose name
-- pattern matches; the capture is trimmed.
def voterNameFromLines : List Str → Str
  | [] => "Not found".data
  | line :: rest =>
    if jsIncludes (lcStr line) "father".data || jsIncludes (lcStr line) "soundar".data then
      voterNameFromLines rest
    else
      match voterNameScan line with
      | some m => jsTrim m
      | none => voterNameFromLines rest

-- Father label pattern
-- `/Father'?s?\s*N[a-z]*\s*[;:\-]\s*([A-Za-z][A-Za-z\s]{2,30})/i`.
-- With the `i` flag `[a-z]*` matches letters of either case; the
-- quantifiers are all forced (disjoint follow-up classes), and the
-- capture's `{2,30}` takes at most 30 of the maximal letters/whitespace
-- run and needs at least 2.
-- `'?`: at most one apostrophe.
def skipApos (r0 : Str) : Str := match r0 with | '\'' :: t => t | _ => r0

-- `s?` under `/i`.
def skipS (r1 : Str) : Str :=
  match r1 with
  | c :: t => if lcChar c == 's' then t else r1
  | [] => r1

-- The capture `([A-Za-z][A-Za-z\s]{2,30})`.
def fatherCapBody : Str → Option Str
  | a :: t5 =>
    if isAlphaA a then
      let body := (t5.takeWhile (fun d => isAlphaA d || isWs d)).take 30
      if body.length ≥ 2 then some (a :: body) else none
    else none
  | [] => none

-- `[;:\-]\s*` then the capture.
def fatherSep : Str → Option Str
  | s :: t3 =>
    if s == ';' || s == ':' || s == '-' then fatherCapBody (t3.dropWhile isWs) else none
  | [] => none

-- `\s*N[a-z]*\s*` then separator and capture.
def fatherTail (r2 : Str) : Option Str :=
  match r2.dropWhile isWs with
  | c :: t =>
    if lcChar c == 'n' then fatherSep ((t.dropWhile isAlphaA).dropWhile isWs) else none
  | [] => none

def fatherCapAt (l : Str) : Option Str :=
  (matchLit "father".data l).bind fun r0 => fatherTail (skipS (skipApos r0))

def fatherCapScan : Str → Option Str
  | [] => none
  | c :: cs =>
    match fatherCapAt (c :: cs) with
    | some m => some m
    | none => fatherCapScan cs

-- Replacement of `/[0."'\s]+$/` by the empty string.
def tailClass (c : Char) : Bool := c == '0' || c == '.' || c == '"' || c == '\'' || isWs c

def stripClassEnd (s : Str) : Str := (s.reverse.dropWhile tailClass).reverse

-- Fallback `/\b(Soundara[a-zA-Z]+)/`.
def soundaraAt (l : Str) : Option Str :=
  (litPfx "Soundara".data l).bind fun r =>
  let ext := r.takeWhile isAlphaA
  if ext.isEmpty then none else some ("Soundara".data ++ ext)

def soundaraScan : Option Char → Str → Option Str
  | _, [] => none
  | prev, c :: cs =>
    match (if bOk prev then soundaraAt (c :: cs) else none) with
    | some m => some m
    | none => soundaraScan (some c) cs

-- The record returned by the extractors.  Every JS object slot may hold
-- a string or `null`; `none` models `null`.
structure ExtractedRecord where
  docType : Option Str
  name : Option Str
  dob : Option Str
  gender : Option Str
  aadhaar : Option Str
  cardNo : Option Str
  fatherName : Option Str

def firstNameLine : List Str → Str
  | [] => "Not found".data
  | l :: ls => if isName l then smartTitle l else firstNameLine ls

-- The per-field local constants of the two extractors.
def aadhaarNumber (r2Text : Str) : Str :=
  match aadhaarNumScan none r2Text with
  | some g => g.1 ++ ' ' :: g.2.1 ++ ' ' :: g.2.2
  | none => "Not found".data

def voterCardNo (combined : Str) : Str :=
  match voterCardScan none combined with
  | some m => m
  | none => "Not found".data

def voterFatherName (combined : Str) : Str :=
  match fatherCapScan combined with
  | some cap => stripClassEnd (jsTrim cap)
  | none =>
    match soundaraScan none combined with
    | some s => s
    | none => "Not found".data

def voterGender (textOrig text2x : Str) : Str :=
  if extractGender text2x ≠ "Not found".data
  then extractGender text2x else extractGender textOrig

def voterDob (textOrig : Str) : Str :=
  extractDobFromLines textOrig
    (((jsSplitChar '\n' textOrig).map jsTrim).filter (fun l => !l.isEmpty))

def extractAadhaarFields (r1Text r2Text : Str) : ExtractedRecord :=
  { docType := some "Aadhaar Card".data
    name := some (firstNameLine (splitTrimFilter r1Text))
    dob := some (extractDobFromLines r1Text (splitTrimFilter r1Text))
    gender := some (extractGender r1Text)
    aadhaar := some (aadhaarNumber r2Text)
    cardNo := none
    fatherName := none }

def extractVoterFields (textOrig text2x : Str) : ExtractedRecord :=
  { docType := some "Voter ID".data
    name := some (voterNameFromLines (splitTrimFilter (textOrig ++ '\n' :: text2x)))
    dob := some (voterDob textOrig)
    gender := some (voterGender textOrig text2x)
    aadhaar := none
    cardNo := some (voterCardNo (textOrig ++ '\n' :: text2x))
    fatherName := some (voterFatherName (textOrig ++ '\n' :: text2x)) }

-- localStorage persistence.  The store models the single slot under
-- LS_KEY: `none` is an absent entry, `some (r, savedAt)` the JSON
-- envelope `{result, savedAt}`.
def ttlMillis : Nat := 24 * 60 * 60 * 1000

def saveLastResult (r : ExtractedRecord) (now : Nat) : Option (ExtractedRecord × Nat) :=
  some (r, now)

-- Returns the loaded record and the store after the read (the read
-- deletes an expired entry).
def loadLastResult (now : Nat) (store : Option (ExtractedRecord × Nat)) :
    Option ExtractedRecord × Option (ExtractedRecord × Nat) :=
  match store with
  | none => (none, none)
  | some rs =>
    if now - rs.2 > ttlMillis then (none, none) else (some rs.1, store)

-- The found-field count of `handleUpload`: truthy values (not `null`,
-- not the empty string) different from the sentinel.
def truthyFound (v : Option Str) : Bool :=
  match v with
  | none => false
  | some s => !s.isEmpty && s ≠ "Not found".data

def foundCount (r : ExtractedRecord) : Nat :=
  ([r.name, r.dob, r.gender, r.aadhaar, r.cardNo, r.fatherName].filter truthyFound).length

inductive Bucket where
  | success
  | fair
  | poor
deriving DecidableEq, Repr

-- Quality bucket of the status chain `found >= 4 / found >= 2 / else`.
def statusBucket (found : Nat) : Bucket :=
  if found ≥ 4 then .success else if found ≥ 2 then .fair else .poor

def bucketMsg (found : Nat) : Str :=
  if found ≥ 4 then "✅ Extraction successful".data
  else if found ≥ 2 then
    "⚠️ Partial: ".data ++ (Nat.repr found).data ++ " fields found".data
  else "❌ Poor image quality — try a clearer, well-lit photo".data

-- The orchestrator.  Each recognition-capability call either yields the
-- recognized text or throws; `Except` models the promise outcome, and
-- sequencing short-circuits at the first error exactly as the `await`
-- chain inside the `try` block does.
def runOcrModel (detect pass1 pass2 : Except Str Str) : Except Str ExtractedRecord :=
  match detect with
  | .error e => .error e
  | .ok detectText =>
    if detectDocType detectText = .voter then
      match pass1 with
      | .error e => .error e
      | .ok textOrig =>
        match pass2 with
        | .error e => .error e
        | .ok text2x => .ok (extractVoterFields textOrig text2x)
    else
      match pass1 with
      | .error e => .error e
      | .ok r1Text =>
        match pass2 with
        | .error e => .error e
        | .ok r2Text => .ok (extractAadhaarFields r1Text r2Text)

-- Component state touched by `handleUpload`.
structure UiState where
  result : Option ExtractedRecord
  statusMsg : Str
  store : Option (ExtractedRecord × Nat)
  loading : Bool

-- `handleUpload` around one run: clear the result and message, then on
-- success store/cache/message the record, on failure only set the error
-- message (the catch block), leaving the cache untouched.
def handleUpload (outcome : Except Str ExtractedRecord) (now : Nat) (s : UiState) : UiState :=
  let s1 : UiState := { s with loading := true, result := none, statusMsg := [] }
  match outcome with
  | .ok extracted =>
    { s1 with
      result := some extracted
      store := saveLastResult extracted now
      statusMsg := bucketMsg (foundCount extracted)
      loading := false }
  | .error e =>
    { s1 with statusMsg := "❌ OCR error: ".data ++ e, loading := false }

/-! Character-class facts. -/

theorem ws_mem (c : Char) (h : isWs c = true) :
    c = ' ' ∨ c = '\t' ∨ c = '\n' ∨ c = '\r' ∨ c = Char.ofNat 11 ∨ c = Char.ofNat 12 := by
  simp [isWs] at h
  tauto

theorem alpha_not_ws {c : Char} (h : isAlphaA c = true) : isWs c = false := by
  cases hw : isWs c with
  | false => rfl
  | true =>
    rcases ws_mem c hw with h1 | h1 | h1 | h1 | h1 | h1 <;> subst h1 <;>
      exact absurd h (by decide)

theorem alpha_not_digit {c : Char} (h : isAlphaA c = true) : isDigitA c = false := by
  simp [isAlphaA, isUpperA, isLowerA] at h
  simp only [isDigitA, Bool.and_eq_false_iff, decide_eq_false_iff_not, not_le]
  omega

theorem upper_alpha {c : Char} (h : isUpperA c = true) : isAlphaA c = true := by
  simp [isAlphaA, h]

theorem alpha_not_tailClass {c : Char} (h : isAlphaA c = true) : tailClass c = false := by
  have hd := alpha_not_digit h
  have hw := alpha_not_ws h
  simp [isAlphaA, isUpperA, isLowerA] at h
  simp only [tailClass, hw, Bool.or_false, Bool.or_eq_false_iff, beq_eq_false_iff_ne, ne_eq]
  refine ⟨⟨⟨?_, ?_⟩, ?_⟩, ?_⟩ <;> rintro rfl <;> simp_all

/-! `dropWhile`, `jsTrim` and `stripTrailTok` structure. -/

theorem dropWhile_cons_eq {p : Char → Bool} {l t : Str} {c : Char}
    (h : l.dropWhile p = c :: t) : p c = false := by
  induction l with
  | nil => simp [List.dropWhile] at h
  | cons a as ih =>
    by_cases hp : p a
    · exact ih (by simpa [List.dropWhile, hp] using h)
    · simp [List.dropWhile, hp] at h
      rcases h with ⟨rfl, _⟩
      simpa using hp

theorem dropWhile_append_last {p : Char → Bool} {c : Char} (hc : p c = false) (xs : Str) :
    (xs ++ [c]).dropWhile p = xs.dropWhile p ++ [c] := by
  induction xs with
  | nil => simp [List.dropWhile, hc]
  | cons a as ih => by_cases hp : p a <;> simp [List.dropWhile, hp, ih]

theorem jsTrim_cons {c : Char} (hc : isWs c = false) (t : Str) :
    jsTrim (c :: t) = c :: (t.reverse.dropWhile isWs).reverse := by
  unfold jsTrim
  rw [List.dropWhile_cons_of_neg (by simp [hc])]
  rw [List.reverse_cons, dropWhile_append_last hc, List.reverse_append]
  simp

theorem jsTrim_cons_ne_nil {c : Char} (hc : isWs c = false) (t : Str) :
    jsTrim (c :: t) ≠ [] := by
  rw [jsTrim_cons hc]
  simp

theorem stripTrailTok_cons {c : Char} (hd : isDigitA c = false) (hw : isWs c = false) (t : Str) :
    ∃ t', stripTrailTok (c :: t) = c :: t' := by
  simp only [stripTrailTok]
  split
  · split
    · refine ⟨((t.reverse.dropWhile isDigitA).dropWhile isWs).reverse, ?_⟩
      rw [List.reverse_cons, dropWhile_append_last hd, dropWhile_append_last hw,
        List.reverse_append]
      simp
    · exact ⟨t, rfl⟩
  · exact ⟨t, rfl⟩

theorem nameCore_head_alpha (line : Str) :
    nameCore line = [] ∨ ∃ c t, nameCore line = c :: t ∧ isAlphaA c = true := by
  unfold nameCore
  cases h0 : line.dropWhile (fun c => !isAlphaA c) with
  | nil => left; rfl
  | cons c t =>
    have hc : isAlphaA c = true := by
      have := dropWhile_cons_eq h0
      simpa using this
    right
    rw [jsTrim_cons (alpha_not_ws hc)]
    obtain ⟨t', ht'⟩ := stripTrailTok_cons (alpha_not_digit hc) (alpha_not_ws hc)
      ((t.reverse.dropWhile isWs).reverse)
    rw [ht', jsTrim_cons (alpha_not_ws hc)]
    exact ⟨c, _, rfl, hc⟩

/-! `jsIncludes` agrees with `List.IsInfix`. -/

theorem consPrefixCons {a b : Char} {as bs : Str} :
    a :: as <+: b :: bs ↔ a = b ∧ as <+: bs := by
  constructor
  · rintro ⟨t, h⟩
    rw [List.cons_append] at h
    injection h with h1 h2
    exact ⟨h1, t, h2⟩
  · rintro ⟨rfl, t, h⟩
    exact ⟨t, by rw [List.cons_append, h]⟩

theorem isInfixConsIff {l₁ l₂ : Str} {a : Char} :
    l₁ <:+: a :: l₂ ↔ l₁ <+: a :: l₂ ∨ l₁ <:+: l₂ := by
  constructor
  · rintro ⟨s, t, h⟩
    cases s with
    | nil => exact Or.inl ⟨t, by simpa using h⟩
    | cons x xs =>
      right
      simp only [List.cons_append] at h
      injection h with h1 h2
      exact ⟨xs, t, h2⟩
  · rintro (⟨t, h⟩ | ⟨s, t, h⟩)
    · exact ⟨[], t, by simpa using h⟩
    · exact ⟨a :: s, t, by rw [← h]; simp⟩

theorem isPfx_iff (n h : Str) : isPfx n h = true ↔ n <+: h := by
  induction n generalizing h with
  | nil => simp [isPfx]
  | cons a as ih =>
    cases h with
    | nil => simp [isPfx]
    | cons b bs =>
      simp only [isPfx, Bool.and_eq_true, beq_iff_eq, consPrefixCons, ih]

theorem jsIncludes_iff (h n : Str) : jsIncludes h n = true ↔ n <:+: h := by
  induction h with
  | nil => simp [jsIncludes, isPfx_iff]
  | cons c t ih => simp [jsIncludes, isPfx_iff, ih, isInfixConsIff]

theorem hasChar_iff (l : Str) (c : Char) : hasChar l c = true ↔ c ∈ l := by
  simp [hasChar]

/-! Word splitting, title casing. -/

theorem wordsAux_shape (t acc : Str) :
    ∃ w rest, wordsAux acc t = (acc.reverse ++ w) :: rest := by
  induction t generalizing acc with
  | nil => exact ⟨[], [], by simp [wordsAux]⟩
  | cons c cs ih =>
    by_cases h : isWs c
    · exact ⟨[], afterSep cs, by simp [wordsAux, h]⟩
    · obtain ⟨w, rest, hw⟩ := ih (c :: acc)
      refine ⟨c :: w, rest, ?_⟩
      rw [wordsAux]
      simp only [h]
      rw [if_neg (by simp)]
      rw [hw]
      simp

theorem jsSplitWs_cons {c : Char} (hc : isWs c = false) (t : Str) :
    ∃ w rest, jsSplitWs (c :: t) = (c :: w) :: rest := by
  obtain ⟨w, rest, hw⟩ := wordsAux_shape t [c]
  refine ⟨w, rest, ?_⟩
  unfold jsSplitWs
  rw [wordsAux]
  rw [if_neg (by simp [hc])]
  simpa using hw

theorem titleWord_cons_ne_nil (c : Char) (t : Str) : titleWord (c :: t) ≠ [] := by
  simp only [titleWord]
  split
  · simp
  · simp

theorem joinSp_cons_ne_nil {w : Str} (hw : w ≠ []) (ws : List Str) :
    joinSp (w :: ws) ≠ [] := by
  cases ws with
  | nil => simpa [joinSp] using hw
  | cons x xs =>
    cases w with
    | nil => exact absurd rfl hw
    | cons a as => simp [joinSp]

theorem isName_shape {line : Str} (h : isName line = true) :
    nameShapeOk (nameCore line) = true := by
  simp only [isName] at h
  split at h
  · cases h
  · split at h
    · cases h
    · next hs => simpa using hs

theorem smartTitle_ne_nil_of_isName {line : Str} (h : isName line = true) :
    smartTitle line ≠ [] := by
  have hs := isName_shape h
  rcases nameCore_head_alpha line with h0 | ⟨c, t, h0, hc⟩
  · rw [h0] at hs
    simp [nameShapeOk] at hs
  · unfold smartTitle
    rw [h0]
    obtain ⟨w, rest, hw⟩ := jsSplitWs_cons (alpha_not_ws hc) t
    rw [hw]
    simp only [List.map]
    exact joinSp_cons_ne_nil (titleWord_cons_ne_nil c w) _

theorem firstNameLine_ne_nil (ls : List Str) : firstNameLine ls ≠ [] := by
  induction ls with
  | nil =>
    simp [firstNameLine]
  | cons l ls ih =>
    simp only [firstNameLine]
    split
    · exact smartTitle_ne_nil_of_isName (by assumption)
    · exact ih

/-! Field values are never the empty string. -/

theorem append_cons_ne_nil (X : Str) (c : Char) (Y : Str) : X ++ c :: Y ≠ [] := by
  cases X <;> simp

theorem sanitizeWith_ne_nil {sep : Char} {raw s : Str} (h : sanitizeWith sep raw = some s) :
    s ≠ [] := by
  unfold sanitizeWith at h
  split at h
  · split at h
    · cases h
    · simp only [Option.some.injEq] at h
      subst h
      exact append_cons_ne_nil _ _ _
  · cases h

theorem sanitizeDob_ne_nil {raw s : Str} (h : sanitizeDob raw = some s) : s ≠ [] :=
  sanitizeWith_ne_nil h

theorem firstSanitized_sound {ds : List Str} {s : Str} (h : firstSanitized ds = some s) :
    ∃ raw, sanitizeDob raw = some s := by
  induction ds with
  | nil => cases h
  | cons d ds ih =>
    unfold firstSanitized at h
    cases hd : sanitizeDob d with
    | some s' =>
      rw [hd] at h
      simp only [Option.some.injEq] at h
      subst h
      exact ⟨d, hd⟩
    | none =>
      rw [hd] at h
      exact ih h

theorem tier3_sound {ls : List Str} {s : Str} (h : tier3 ls = some s) :
    ∃ raw, sanitizeDob raw = some s := by
  induction ls with
  | nil => cases h
  | cons line rest ih =>
    unfold tier3 at h
    split at h
    · exact ih h
    · cases hf : firstSanitized (dateMatches line) with
      | some s' =>
        rw [hf] at h
        simp only [Option.some.injEq] at h
        subst h
        exact firstSanitized_sound hf
      | none =>
        rw [hf] at h
        exact ih h

theorem extractDob_ne_nil (text : Str) (lines : List Str) :
    extractDobFromLines text lines ≠ [] := by
  unfold extractDobFromLines
  cases h1 : (tier1Scan text).bind sanitizeDob with
  | some s =>
    rcases Option.bind_eq_some.mp h1 with ⟨cand, _, hsan⟩
    simpa using sanitizeDob_ne_nil hsan
  | none =>
    simp only []
    cases h2 : (tier2Scan text).bind sanitizeDob with
    | some s =>
      rcases Option.bind_eq_some.mp h2 with ⟨cand, _, hsan⟩
      simpa using sanitizeDob_ne_nil hsan
    | none =>
      cases h3 : tier3 lines with
      | some s =>
        rcases tier3_sound h3 with ⟨raw, hsan⟩
        simpa using sanitizeDob_ne_nil hsan
      | none => simp

theorem extractGender_cases (t : Str) :
    extractGender t = "Not found".data ∨ extractGender t = "Male".data ∨
      extractGender t = "Female".data := by
  unfold extractGender
  split
  · left; rfl
  · split
    · right; left; rfl
    · right; right; rfl

theorem extractGender_ne_nil (t : Str) : extractGender t ≠ [] := by
  rcases extractGender_cases t with h | h | h <;> rw [h] <;> simp

theorem voterCardAt_ne_nil {l m : Str} (h : voterCardAt l = some m) : m ≠ [] := by
  simp only [voterCardAt] at h
  split at h
  · rename_i hlen
    split at h
    · split at h
      · simp only [Option.some.injEq] at h
        subst h
        simp only [Bool.and_eq_true, decide_eq_true_eq] at hlen
        exact List.append_ne_nil_of_left_ne_nil (List.ne_nil_of_length_pos (by omega)) _
      · split at h
        · cases h
        · simp only [Option.some.injEq] at h
          subst h
          simp only [Bool.and_eq_true, decide_eq_true_eq] at hlen
          exact List.append_ne_nil_of_left_ne_nil (List.ne_nil_of_length_pos (by omega)) _
    · cases h
  · cases h

theorem voterCardScan_ne_nil :
    ∀ (l : Str) (prev : Option Char) (m : Str), voterCardScan prev l = some m → m ≠ [] := by
  intro l
  induction l with
  | nil => intro prev m h; cases h
  | cons c cs ih =>
    intro prev m h
    unfold voterCardScan at h
    split at h
    · next heq =>
      simp only [Option.some.injEq] at h
      subst h
      by_cases hb : bOk prev = true
      · rw [if_pos hb] at heq
        exact voterCardAt_ne_nil heq
      · rw [if_neg hb] at heq
        cases heq
    · exact ih _ _ h

theorem upper_not_ws {c : Char} (h : isUpperA c = true) : isWs c = false :=
  alpha_not_ws (upper_alpha h)

theorem nameCapAt_shape {l cap : Str} (h : nameCapAt l = some cap) :
    ∃ u t, cap = u :: t ∧ isUpperA u = true := by
  simp only [nameCapAt] at h
  split at h
  · rename_i c cs
    split at h
    · rename_i hu
      split at h
      · cases h
      · split at h
        · cases h
        · simp only [Option.some.injEq] at h
          subst h
          exact ⟨c, _, rfl, hu⟩
    · cases h
  · cases h

theorem tryDots_shape :
    ∀ (k : Nat) (l cap : Str), tryDots k l = some cap →
      ∃ u t, cap = u :: t ∧ isUpperA u = true := by
  intro k
  induction k with
  | zero => intro l cap h; exact nameCapAt_shape h
  | succ k ih =>
    intro l cap h
    unfold tryDots at h
    split at h
    · split at h
      · split at h
        · simp only [Option.some.injEq] at h
          subst h
          rename_i heq
          exact ih _ _ heq
        · exact nameCapAt_shape h
      · exact nameCapAt_shape h
    · exact nameCapAt_shape h

theorem voterNameAt_shape {l cap : Str} (h : voterNameAt l = some cap) :
    ∃ u t, cap = u :: t ∧ isUpperA u = true := by
  unfold voterNameAt at h
  split at h
  · split at h
    · split at h
      · cases h
      · exact tryDots_shape 3 _ _ h
    · cases h
  · cases h

theorem voterNameScan_shape :
    ∀ (l cap : Str), voterNameScan l = some cap →
      ∃ u t, cap = u :: t ∧ isUpperA u = true := by
  intro l
  induction l with
  | nil => intro cap h; cases h
  | cons c cs ih =>
    intro cap h
    unfold voterNameScan at h
    split at h
    · rename_i heq
      simp only [Option.some.injEq] at h
      subst h
      exact voterNameAt_shape heq
    · exact ih _ h

theorem voterNameFromLines_ne_nil (ls : List Str) : voterNameFromLines ls ≠ [] := by
  induction ls with
  | nil => simp [voterNameFromLines]
  | cons line rest ih =>
    unfold voterNameFromLines
    split
    · exact ih
    · split
      · rename_i m heq
        obtain ⟨u, t, rfl, hu⟩ := voterNameScan_shape _ _ heq
        exact jsTrim_cons_ne_nil (upper_not_ws hu) t
      · exact ih

theorem stripClassEnd_cons_ne_nil {c : Char} (hc : tailClass c = false) (t : Str) :
    stripClassEnd (c :: t) ≠ [] := by
  unfold stripClassEnd
  rw [List.reverse_cons, dropWhile_append_last hc, List.reverse_append]
  simp

theorem fatherCapBody_shape {l cap : Str} (h : fatherCapBody l = some cap) :
    ∃ a t, cap = a :: t ∧ isAlphaA a = true := by
  simp only [fatherCapBody] at h
  split at h
  · rename_i a t5
    split at h
    · rename_i ha
      split at h
      · simp only [Option.some.injEq] at h
        subst h
        exact ⟨a, _, rfl, ha⟩
      · cases h
    · cases h
  · cases h

theorem fatherSep_shape {l cap : Str} (h : fatherSep l = some cap) :
    ∃ a t, cap = a :: t ∧ isAlphaA a = true := by
  unfold fatherSep at h
  split at h
  · split at h
    · exact fatherCapBody_shape h
    · cases h
  · cases h

theorem fatherTail_shape {l cap : Str} (h : fatherTail l = some cap) :
    ∃ a t, cap = a :: t ∧ isAlphaA a = true := by
  unfold fatherTail at h
  split at h
  · split at h
    · exact fatherSep_shape h
    · cases h
  · cases h

theorem fatherCapAt_shape {l cap : Str} (h : fatherCapAt l = some cap) :
    ∃ a t, cap = a :: t ∧ isAlphaA a = true := by
  simp only [fatherCapAt] at h
  rcases Option.bind_eq_some.mp h with ⟨r0, _, h1⟩
  exact fatherTail_shape h1

theorem fatherCapScan_shape :
    ∀ (l cap : Str), fatherCapScan l = some cap →
      ∃ a t, cap = a :: t ∧ isAlphaA a = true := by
  intro l
  induction l with
  | nil => intro cap h; cases h
  | cons c cs ih =>
    intro cap h
    unfold fatherCapScan at h
    split at h
    · rename_i heq
      simp only [Option.some.injEq] at h
      subst h
      exact fatherCapAt_shape heq
    · exact ih _ h

theorem soundaraAt_shape {l s : Str} (h : soundaraAt l = some s) :
    ∃ t, s = 'S' :: t := by
  simp only [soundaraAt] at h
  rcases Option.bind_eq_some.mp h with ⟨r, _, h1⟩
  split at h1
  · cases h1
  · simp only [Option.some.injEq] at h1
    subst h1
    exact ⟨_, rfl⟩

theorem soundaraScan_shape :
    ∀ (l : Str) (prev : Option Char) (s : Str), soundaraScan prev l = some s →
      ∃ t, s = 'S' :: t := by
  intro l
  induction l with
  | nil => intro prev s h; cases h
  | cons c cs ih =>
    intro prev s h
    unfold soundaraScan at h
    split at h
    · rename_i heq
      simp only [Option.some.injEq] at h
      subst h
      by_cases hb : bOk prev = true
      · rw [if_pos hb] at heq
        exact soundaraAt_shape heq
      · rw [if_neg hb] at heq
        cases heq
    · exact ih _ _ h

theorem voterFatherName_ne_nil (combined : Str) : voterFatherName combined ≠ [] := by
  unfold voterFatherName
  split
  · rename_i cap heq
    obtain ⟨a, t, rfl, ha⟩ := fatherCapScan_shape _ _ heq
    rw [jsTrim_cons (alpha_not_ws ha)]
    exact stripClassEnd_cons_ne_nil (alpha_not_tailClass ha) _
  · split
    · rename_i s heq
      obtain ⟨t, rfl⟩ := soundaraScan_shape _ _ _ heq
      simp
    · simp

theorem voterCardNo_ne_nil (combined : Str) : voterCardNo combined ≠ [] := by
  unfold voterCardNo
  split
  · rename_i m heq
    exact voterCardScan_ne_nil _ _ _ heq
  · simp

theorem aadhaarNumber_ne_nil (r2Text : Str) : aadhaarNumber r2Text ≠ [] := by
  unfold aadhaarNumber
  split
  · exact append_cons_ne_nil _ _ _
  · simp

theorem voterGender_ne_nil (textOrig text2x : Str) : voterGender textOrig text2x ≠ [] := by
  unfold voterGender
  split
  · exact extractGender_ne_nil _
  · exact extractGender_ne_nil _

theorem voterDob_ne_nil (textOrig : Str) : voterDob textOrig ≠ [] :=
  extractDob_ne_nil _ _

/-! Sample records for the quality-bucket boundary cases. -/

def recFound4 : ExtractedRecord :=
  { docType := some "Voter ID".data
    name := some "Karthikeyan".data
    dob := some "12/11/1988".data
    gender := some "Male".data
    aadhaar := none
    cardNo := some "SOL3248432".data
    fatherName := some "Not found".data }

def recFound2 : ExtractedRecord :=
  { docType := some "Aadhaar Card".data
    name := some "Arun Kumar".data
    dob := some "Not found".data
    gender := some "Male".data
    aadhaar := some "Not found".data
    cardNo := none
    fatherName := none }

def recFound1 : ExtractedRecord :=
  { docType := some "Aadhaar Card".data
    name := some "Not found".data
    dob := some "05/07/1990".data
    gender := some "Not found".data
    aadhaar := some "Not found".data
    cardNo := none
    fatherName := none }

/-- C7: the quality bucket is computed from the count of non-sentinel
fields: a count ≥ 4 yields Success, a count ≥ 2 but < 4 yields Partial,
and a count < 2 yields Poor; the status message published by the upload
handler is exactly the bucket's message; and the boundary cases are as
claimed: exactly 4 found fields give Success, exactly 2 give Partial,
exactly 1 gives Poor. -/
theorem c7_quality_bucket :
    (∀ n : Nat,
       (4 ≤ n → statusBucket n = Bucket.success) ∧
       (2 ≤ n → n < 4 → statusBucket n = Bucket.fair) ∧
       (n < 2 → statusBucket n = Bucket.poor)) ∧
    (∀ n : Nat, bucketMsg n =
       (match statusBucket n with
        | Bucket.success => "✅ Extraction successful".data
        | Bucket.fair => "⚠️ Partial: ".data ++ (Nat.repr n).data ++ " fields found".data
        | Bucket.poor => "❌ Poor image quality — try a clearer, well-lit photo".data)) ∧
    (∀ (r : ExtractedRecord) (now : Nat) (s : UiState),
       (handleUpload (.ok r) now s).statusMsg = bucketMsg (foundCount r)) ∧
    (foundCount recFound4 = 4 ∧ statusBucket (foundCount recFound4) = Bucket.success) ∧
    (foundCount recFound2 = 2 ∧ statusBucket (foundCount recFound2) = Bucket.fair) ∧
    (foundCount recFound1 = 1 ∧ statusBucket (foundCount recFound1) = Bucket.poor) := by
  refine ⟨?_, ?_, ?_, ?_, ?_, ?_⟩
  · intro n
    refine ⟨fun h4 => ?_, fun h2 h4 => ?_, fun h2 => ?_⟩ <;>
      simp only [statusBucket] <;> split_ifs <;> first | rfl | omega
  · intro n
    simp only [bucketMsg, statusBucket]
    split_ifs <;> rfl
  · intro r now s
    rfl
  · exact ⟨by decide, by decide⟩
  · exact ⟨by decide, by decide⟩
  · exact ⟨by decide, by decide⟩

/-- C7 witness: the bucket theorem applied at the three boundary
counts. -/
theorem c7_witness :
    statusBucket 4 = Bucket.success ∧ statusBucket 2 = Bucket.fair ∧
      statusBucket 1 = Bucket.poor :=
  ⟨(c7_quality_bucket.1 4).1 (by decide),
   (c7_quality_bucket.1 2).2.1 (by decide) (by decide),
   (c7_quality_bucket.1 1).2.2 (by decide)⟩

/-- C8: a cached result saved at time `tSave` and read more than 24 hours
later is treated as absent and the stored entry is deleted by that read;
a read within 24 hours returns the record exactly as saved with the
entry intact; in particular a read at `tSave` + 25 hours returns absent
and removes the entry. -/
theorem c8_cache_ttl :
    (∀ (r : ExtractedRecord) (tSave tRead : Nat),
       tSave + ttlMillis < tRead →
       loadLastResult tRead (saveLastResult r tSave) = (none, none)) ∧
    (∀ (r : ExtractedRecord) (tSave tRead : Nat),
       tRead - tSave ≤ ttlMillis →
       loadLastResult tRead (saveLastResult r tSave) = (some r, saveLastResult r tSave)) ∧
    (∀ (r : ExtractedRecord) (tSave : Nat),
       loadLastResult (tSave + 25 * 60 * 60 * 1000) (saveLastResult r tSave) =
         (none, none)) := by
  refine ⟨?_, ?_, ?_⟩
  · intro r tSave tRead h
    simp only [loadLastResult, saveLastResult]
    rw [if_pos]
    simp only [ttlMillis] at h ⊢
    omega
  · intro r tSave tRead h
    simp only [loadLastResult, saveLastResult]
    rw [if_neg]
    omega
  · intro r tSave
    simp only [loadLastResult, saveLastResult]
    rw [if_pos]
    simp only [ttlMillis]
    omega

/-- C8 witness: the TTL theorem applied at save time 0 and read time
25 hours. -/
theorem c8_witness :
    loadLastResult (25 * 60 * 60 * 1000) (saveLastResult recFound1 0) = (none, none) :=
  c8_cache_ttl.1 recFound1 0 (25 * 60 * 60 * 1000) (by decide)

/-- C9: an error from any recognition-capability call short-circuits the
run with that error (no retry, no later call), and the upload handler's
catch branch leaves the displayed result empty, leaves the cache
unwritten, clears the loading flag and surfaces the message verbatim
behind the fixed error marker. -/
theorem c9_failure_handling :
    (∀ (e : Str) (pass1 pass2 : Except Str Str),
       runOcrModel (.error e) pass1 pass2 = .error e) ∧
    (∀ (e : Str) (detectText : Str) (pass2 : Except Str Str),
       runOcrModel (.ok detectText) (.error e) pass2 = .error e) ∧
    (∀ (e : Str) (detectText t1 : Str),
       runOcrModel (.ok detectText) (.ok t1) (.error e) = .error e) ∧
    (∀ (e : Str) (now : Nat) (s : UiState),
       (handleUpload (.error e) now s).result = none ∧
       (handleUpload (.error e) now s).store = s.store ∧
       (handleUpload (.error e) now s).statusMsg = "❌ OCR error: ".data ++ e ∧
       (handleUpload (.error e) now s).loading = false) := by
  refine ⟨fun e p1 p2 => rfl, ?_, ?_, fun e now s => ⟨rfl, rfl, rfl, rfl⟩⟩
  · intro e detectText pass2
    simp only [runOcrModel]
    split <;> rfl
  · intro e detectText t1
    simp only [runOcrModel]
    split <;> rfl

/-- C2: the document classifier is total (every input maps to exactly one
of the three variants) and applies its rules in order: voter keywords
first, then Aadhaar keywords, then the voter-card structural pattern,
then the grouped 12-digit pattern, else Unknown; and the fragment
"ELECTION C" classifies as Voter. -/
theorem c2_classifier :
    (∀ text : Str,
       detectDocType text = DocType.voter ∨ detectDocType text = DocType.aadhaar ∨
         detectDocType text = DocType.unknown) ∧
    (∀ text : Str,
       ("election".data <:+: lcStr text ∨ "elector".data <:+: lcStr text ∨
         "voter".data <:+: lcStr text) →
       detectDocType text = DocType.voter) ∧
    (∀ text : Str,
       ¬("election".data <:+: lcStr text) → ¬("elector".data <:+: lcStr text) →
       ¬("voter".data <:+: lcStr text) →
       ("aadhaar".data <:+: lcStr text ∨ "aadhar".data <:+: lcStr text ∨
         "uidai".data <:+: lcStr text ∨ "government of india".data <:+: lcStr text) →
       detectDocType text = DocType.aadhaar) ∧
    (∀ text : Str,
       ¬("election".data <:+: lcStr text) → ¬("elector".data <:+: lcStr text) →
       ¬("voter".data <:+: lcStr text) →
       ¬("aadhaar".data <:+: lcStr text) → ¬("aadhar".data <:+: lcStr text) →
       ¬("uidai".data <:+: lcStr text) → ¬("government of india".data <:+: lcStr text) →
       (voterCardScan none text).isSome = true →
       detectDocType text = DocType.voter) ∧
    (∀ text : Str,
       ¬("election".data <:+: lcStr text) → ¬("elector".data <:+: lcStr text) →
       ¬("voter".data <:+: lcStr text) →
       ¬("aadhaar".data <:+: lcStr text) → ¬("aadhar".data <:+: lcStr text) →
       ¬("uidai".data <:+: lcStr text) → ¬("government of india".data <:+: lcStr text) →
       (voterCardScan none text).isSome = false →
       grouped12Scan none text = true →
       detectDocType text = DocType.aadhaar) ∧
    (∀ text : Str,
       ¬("election".data <:+: lcStr text) → ¬("elector".data <:+: lcStr text) →
       ¬("voter".data <:+: lcStr text) →
       ¬("aadhaar".data <:+: lcStr text) → ¬("aadhar".data <:+: lcStr text) →
       ¬("uidai".data <:+: lcStr text) → ¬("government of india".data <:+: lcStr text) →
       (voterCardScan none text).isSome = false →
       grouped12Scan none text = false →
       detectDocType text = DocType.unknown) ∧
    detectDocType "ELECTION C".data = DocType.voter := by
  have hincl : ∀ (l n : Str), ¬(n <:+: l) → jsIncludes l n = false := by
    intro l n h
    cases hj : jsIncludes l n with
    | false => rfl
    | true => exact absurd ((jsIncludes_iff _ _).1 hj) h
  refine ⟨?_, ?_, ?_, ?_, ?_, ?_, ?_⟩
  · intro text
    rcases h : detectDocType text with _ | _ | _ <;> simp
  · intro text hv
    unfold detectDocType
    rw [if_pos]
    rcases hv with h | h | h <;>
      simp [(jsIncludes_iff (lcStr text) _).2 h]
  · intro text h1 h2 h3 ha
    unfold detectDocType
    rw [if_neg (by simp [hincl _ _ h1, hincl _ _ h2, hincl _ _ h3]), if_pos]
    rcases ha with h | h | h | h <;>
      simp [(jsIncludes_iff (lcStr text) _).2 h]
  · intro text h1 h2 h3 h4 h5 h6 h7 hcard
    unfold detectDocType
    rw [if_neg (by simp [hincl _ _ h1, hincl _ _ h2, hincl _ _ h3]),
      if_neg (by simp [hincl _ _ h4, hincl _ _ h5, hincl _ _ h6, hincl _ _ h7]),
      if_pos (by simp [hcard])]
  · intro text h1 h2 h3 h4 h5 h6 h7 hcard hgroup
    unfold detectDocType
    rw [if_neg (by simp [hincl _ _ h1, hincl _ _ h2, hincl _ _ h3]),
      if_neg (by simp [hincl _ _ h4, hincl _ _ h5, hincl _ _ h6, hincl _ _ h7]),
      if_neg (by simp [hcard]), if_pos (by simp [hgroup])]
  · intro text h1 h2 h3 h4 h5 h6 h7 hcard hgroup
    unfold detectDocType
    rw [if_neg (by simp [hincl _ _ h1, hincl _ _ h2, hincl _ _ h3]),
      if_neg (by simp [hincl _ _ h4, hincl _ _ h5, hincl _ _ h6, hincl _ _ h7]),
      if_neg (by simp [hcard]), if_neg (by simp [hgroup])]
  · decide

/-- C2 witness: the keyword rule applied to a concrete voter text. -/
theorem c2_witness : detectDocType "my voter id".data = DocType.voter :=
  c2_classifier.2.1 "my voter id".data (by decide)

/-- C6 counterexample: the gender regex has no case-insensitive flag, so
the lowercase and mixed-case Latin forms do not match and yield the
sentinel, contradicting the claim that matching is case-insensitive. -/
theorem c6_counterexample :
    extractGender "male".data = "Not found".data ∧
      extractGender "MaLe".data = "Not found".data := by
  constructor <;> decide

/-- C6 (amended): the gender extractor matches the exact-case tokens
Male, Female, MALE, FEMALE and the four Tamil tokens (not arbitrary
casings such as "male" or "MaLe"), normalizes any match to exactly
"Male" or "Female" by a lowercased-first-letter test, returns only one
of the three canonical values, and returns the sentinel exactly when no
token matches. -/
theorem c6_gender_extractor :
    (∀ text : Str,
       extractGender text = "Not found".data ∨ extractGender text = "Male".data ∨
         extractGender text = "Female".data) ∧
    (∀ text m : Str, scanGender none text = some m →
       (lcStr m).head? = some 'm' → extractGender text = "Male".data) ∧
    (∀ text m : Str, scanGender none text = some m →
       (lcStr m).head? ≠ some 'm' → extractGender text = "Female".data) ∧
    (∀ text : Str, scanGender none text = none →
       extractGender text = "Not found".data) ∧
    extractGender "Male".data = "Male".data ∧
    extractGender "MALE there".data = "Male".data ∧
    extractGender "x Female".data = "Female".data ∧
    extractGender "FEMALE".data = "Female".data ∧
    extractGender "male".data = "Not found".data := by
  refine ⟨?_, ?_, ?_, ?_, by decide, by decide, by decide, by decide, by decide⟩
  · exact extractGender_cases
  · intro text m hscan hm
    unfold extractGender
    rw [hscan]
    cases hl : lcStr m with
    | nil => rw [hl] at hm; cases hm
    | cons c t =>
      rw [hl] at hm
      simp only [List.head?] at hm
      injection hm with hm
      subst hm
      simp [hl, isPfx]
  · intro text m hscan hm
    unfold extractGender
    rw [hscan]
    cases hl : lcStr m with
    | nil => simp [hl, isPfx]
    | cons c t =>
      rw [hl] at hm
      simp only [List.head?] at hm
      have hne : c ≠ 'm' := fun hc => hm (by rw [hc])
      have hne' : ¬('m' = c) := fun hc => hne hc.symm
      simp [hl, isPfx, hne']
  · intro text hscan
    unfold extractGender
    rw [hscan]

/-- C6 witness: the normalization rule applied at a concrete text whose
first match is the uppercase FEMALE token. -/
theorem c6_witness : extractGender "FEMALE x".data = "Female".data :=
  c6_gender_extractor.2.2.1 "FEMALE x".data "FEMALE".data (by decide) (by decide)

/-- C10: whenever the gender regex's first match is one of the four
Tamil tokens — including the male tokens — the extractor returns
"Female", because normalization only tests whether the matched token
starts with the Latin letter m. -/
theorem c10_tamil_tokens_female :
    ∀ text m : Str, scanGender none text = some m →
      (m = "ஆண்பால்".data ∨ m = "பெண்பால்".data ∨ m = "ஆண்".data ∨ m = "பெண்".data) →
      extractGender text = "Female".data := by
  intro text m hscan hm
  unfold extractGender
  rw [hscan]
  rcases hm with rfl | rfl | rfl | rfl <;> decide

/-- C10 witness: a text whose first gender match is the Tamil male token
(embedded between word characters so that the ASCII word boundaries
hold) is normalized to "Female". -/
theorem c10_witness : extractGender "xஆண்y".data = "Female".data :=
  c10_tamil_tokens_female "xஆண்y".data "ஆண்".data (by decide) (by tauto)

/-- C1 counterexample: `extractAadhaarFields` places the JS value `null`
(modelled `none`) in the `cardNo` and `fatherName` slots of every record
it returns, and `extractVoterFields` places `null` in `aadhaar`, so the
claim that the two extractors never place null/undefined in any field of
the returned object is false. -/
theorem c1_counterexample :
    (extractAadhaarFields [] []).fatherName = none ∧
      (extractAadhaarFields [] []).cardNo = none ∧
      (extractVoterFields [] []).aadhaar = none :=
  ⟨rfl, rfl, rfl⟩

/-- C1 (amended): every applicable field of the returned record —
docType, name, dob, gender and the type's ID number(s), plus fatherName
for Voter — holds a string that is never empty and never null; the
fields that do not apply to the document type (cardNo and fatherName for
Aadhaar, aadhaar for Voter) are explicitly null. -/
theorem c1_fields_not_null :
    (∀ r1Text r2Text : Str,
       (extractAadhaarFields r1Text r2Text).docType = some "Aadhaar Card".data ∧
       (∃ s, (extractAadhaarFields r1Text r2Text).name = some s ∧ s ≠ []) ∧
       (∃ s, (extractAadhaarFields r1Text r2Text).dob = some s ∧ s ≠ []) ∧
       (∃ s, (extractAadhaarFields r1Text r2Text).gender = some s ∧ s ≠ []) ∧
       (∃ s, (extractAadhaarFields r1Text r2Text).aadhaar = some s ∧ s ≠ []) ∧
       (extractAadhaarFields r1Text r2Text).cardNo = none ∧
       (extractAadhaarFields r1Text r2Text).fatherName = none) ∧
    (∀ textOrig text2x : Str,
       (extractVoterFields textOrig text2x).docType = some "Voter ID".data ∧
       (∃ s, (extractVoterFields textOrig text2x).name = some s ∧ s ≠ []) ∧
       (∃ s, (extractVoterFields textOrig text2x).dob = some s ∧ s ≠ []) ∧
       (∃ s, (extractVoterFields textOrig text2x).gender = some s ∧ s ≠ []) ∧
       (∃ s, (extractVoterFields textOrig text2x).cardNo = some s ∧ s ≠ []) ∧
       (∃ s, (extractVoterFields textOrig text2x).fatherName = some s ∧ s ≠ []) ∧
       (extractVoterFields textOrig text2x).aadhaar = none) := by
  constructor
  · intro r1Text r2Text
    refine ⟨rfl, ⟨_, rfl, firstNameLine_ne_nil _⟩, ⟨_, rfl, extractDob_ne_nil _ _⟩,
      ⟨_, rfl, extractGender_ne_nil _⟩, ⟨_, rfl, aadhaarNumber_ne_nil _⟩, rfl, rfl⟩
  · intro textOrig text2x
    refine ⟨rfl, ⟨_, rfl, voterNameFromLines_ne_nil _⟩, ⟨_, rfl, voterDob_ne_nil _⟩,
      ⟨_, rfl, voterGender_ne_nil _ _⟩, ⟨_, rfl, voterCardNo_ne_nil _⟩,
      ⟨_, rfl, voterFatherName_ne_nil _⟩, rfl⟩

/-- C5 counterexample: the voter DOB rule runs against the plain pass
only.  With plain pass "hello" and enhanced pass "DOB: 01/01/2000" the
returned dob is the sentinel, while running the same DOB rule against
the concatenation of the two passes (as the claim states) finds the
date, so the claim is false. -/
theorem c5_counterexample :
    (extractVoterFields "hello".data "DOB: 01/01/2000".data).dob =
        some "Not found".data ∧
      extractDobFromLines ("hello".data ++ '\n' :: "DOB: 01/01/2000".data)
          (splitTrimFilter ("hello".data ++ '\n' :: "DOB: 01/01/2000".data)) =
        "01/01/2000".data ∧
      (extractVoterFields "hello".data "DOB: 01/01/2000".data).dob ≠
        some (extractDobFromLines ("hello".data ++ '\n' :: "DOB: 01/01/2000".data)
          (splitTrimFilter ("hello".data ++ '\n' :: "DOB: 01/01/2000".data))) := by
  refine ⟨by decide, by decide, by decide⟩

/-- C5 (amended): the Voter dispatch runs the cardNumber, name and
fatherName rules against the concatenation of both recognized passes and
the dob rule against the plain pass only (its result does not depend on
the enhanced pass), and computes gender from the enhanced pass, falling
back to the plain pass exactly when the enhanced pass yields no match;
the Aadhaar dispatch runs name, dob and gender against region-A text
only and the ID number against region-B text only. -/
theorem c5_dispatch :
    (∀ r1Text r2Text r2Text' : Str,
       (extractAadhaarFields r1Text r2Text).name =
         (extractAadhaarFields r1Text r2Text').name ∧
       (extractAadhaarFields r1Text r2Text).dob =
         (extractAadhaarFields r1Text r2Text').dob ∧
       (extractAadhaarFields r1Text r2Text).gender =
         (extractAadhaarFields r1Text r2Text').gender) ∧
    (∀ r1Text r1Text' r2Text : Str,
       (extractAadhaarFields r1Text r2Text).aadhaar =
         (extractAadhaarFields r1Text' r2Text).aadhaar) ∧
    (∀ textOrig text2x : Str,
       (extractVoterFields textOrig text2x).cardNo =
         some (voterCardNo (textOrig ++ '\n' :: text2x)) ∧
       (extractVoterFields textOrig text2x).name =
         some (voterNameFromLines (splitTrimFilter (textOrig ++ '\n' :: text2x))) ∧
       (extractVoterFields textOrig text2x).fatherName =
         some (voterFatherName (textOrig ++ '\n' :: text2x))) ∧
    (∀ textOrig text2x text2x' : Str,
       (extractVoterFields textOrig text2x).dob =
         (extractVoterFields textOrig text2x').dob) ∧
    (∀ textOrig text2x : Str, extractGender text2x ≠ "Not found".data →
       (extractVoterFields textOrig text2x).gender = some (extractGender text2x)) ∧
    (∀ textOrig text2x : Str, extractGender text2x = "Not found".data →
       (extractVoterFields textOrig text2x).gender = some (extractGender textOrig)) := by
  refine ⟨fun _ _ _ => ⟨rfl, rfl, rfl⟩, fun _ _ _ => rfl,
    fun _ _ => ⟨rfl, rfl, rfl⟩, fun _ _ _ => rfl, ?_, ?_⟩
  · intro textOrig text2x h
    simp only [extractVoterFields, voterGender, if_pos h]
  · intro textOrig text2x h
    simp only [extractVoterFields, voterGender]
    rw [if_neg (by simp [h])]

/-- C5 witness: the gender fallback rule applied concretely — the
enhanced pass matches, so its value is used. -/
theorem c5_witness :
    (extractVoterFields "plain".data "Female".data).gender = some "Female".data := by
  have h := c5_dispatch.2.2.2.2.1 "plain".data "Female".data (by decide)
  rw [h]
  decide

/-! Splitting on a separator character: structural facts used for the
sanitizer's idempotence. -/

theorem jsSplitChar_ne_nil (sep : Char) (l : Str) : jsSplitChar sep l ≠ [] := by
  induction l with
  | nil => simp [jsSplitChar]
  | cons c rest ih =>
    simp only [jsSplitChar]
    split
    · simp
    · split <;> simp

theorem jsSplitChar_no_sep (sep : Char) :
    ∀ (l p : Str), p ∈ jsSplitChar sep l → sep ∉ p := by
  intro l
  induction l with
  | nil =>
    intro p hp
    simp [jsSplitChar] at hp
    subst hp
    simp
  | cons c rest ih =>
    intro p hp
    simp only [jsSplitChar] at hp
    split at hp
    · rcases List.mem_cons.mp hp with rfl | hmem
      · simp
      · exact ih p hmem
    · rename_i hc
      split at hp
      · rename_i hrec
        exact absurd hrec (jsSplitChar_ne_nil sep rest)
      · rename_i s ss hrec
        rcases List.mem_cons.mp hp with rfl | hmem
        · intro hmem2
          rcases List.mem_cons.mp hmem2 with heq | hmem3
          · exact hc (by simp [heq])
          · exact ih s (by simp [hrec]) hmem3
        · exact ih p (by simp [hrec, List.mem_cons_of_mem s hmem])

theorem jsSplitChar_sub (sep : Char) :
    ∀ (l p : Str), p ∈ jsSplitChar sep l → ∀ c ∈ p, c ∈ l := by
  intro l
  induction l with
  | nil =>
    intro p hp c hc
    simp [jsSplitChar] at hp
    subst hp
    simp at hc
  | cons a rest ih =>
    intro p hp c hc
    simp only [jsSplitChar] at hp
    split at hp
    · rcases List.mem_cons.mp hp with rfl | hmem
      · simp at hc
      · exact List.mem_cons_of_mem a (ih p hmem c hc)
    · split at hp
      · rename_i hrec
        exact absurd hrec (jsSplitChar_ne_nil sep rest)
      · rename_i s ss hrec
        rcases List.mem_cons.mp hp with rfl | hmem
        · rcases List.mem_cons.mp hc with rfl | hc2
          · exact List.mem_cons_self _ _
          · exact List.mem_cons_of_mem a (ih s (by simp [hrec]) c hc2)
        · exact List.mem_cons_of_mem a
            (ih p (by simp [hrec, List.mem_cons_of_mem s hmem]) c hc)

theorem jsSplitChar_of_not_mem {sep : Char} :
    ∀ {a : Str}, sep ∉ a → jsSplitChar sep a = [a] := by
  intro a
  induction a with
  | nil => intro _; rfl
  | cons c cs ih =>
    intro h
    have hc : ¬((c == sep) = true) := by
      simp only [beq_iff_eq]
      rintro rfl
      exact h (List.mem_cons_self _ _)
    simp only [jsSplitChar]
    rw [if_neg hc, ih (fun hm => h (List.mem_cons_of_mem c hm))]

theorem jsSplitChar_append {sep : Char} :
    ∀ {a : Str} (rest : Str), sep ∉ a →
      jsSplitChar sep (a ++ sep :: rest) = a :: jsSplitChar sep rest := by
  intro a
  induction a with
  | nil =>
    intro rest _
    simp [jsSplitChar]
  | cons c cs ih =>
    intro rest h
    have hc : ¬((c == sep) = true) := by
      simp only [beq_iff_eq]
      rintro rfl
      exact h (List.mem_cons_self _ _)
    simp only [List.cons_append, jsSplitChar]
    rw [if_neg hc]
    rw [show cs.append (sep :: rest) = cs ++ sep :: rest from rfl]
    rw [ih rest (fun hm => h (List.mem_cons_of_mem c hm))]

theorem padStart2_length (s : Str) : 2 ≤ (padStart2 s).length := by
  unfold padStart2
  split_ifs with h1 h2 <;> simp_all

theorem padStart2_idem (s : Str) : padStart2 (padStart2 s) = padStart2 s := by
  show (if (padStart2 s).length ≥ 2 then padStart2 s
    else if (padStart2 s).length = 1 then '0' :: padStart2 s else ['0', '0']) = padStart2 s
  rw [if_pos (padStart2_length s)]

theorem padStart2_mem {c : Char} {s : Str} (h : c ∈ padStart2 s) : c = '0' ∨ c ∈ s := by
  unfold padStart2 at h
  split_ifs at h
  · right; exact h
  · rcases List.mem_cons.mp h with rfl | h2
    · left; rfl
    · right; exact h2
  · simp at h
    exact Or.inl h

theorem sanitizeWith_eq_some {sep : Char} {raw r : Str} (h : sanitizeWith sep raw = some r) :
    ∃ p0 p1 p2, jsSplitChar sep raw = [p0, p1, p2] ∧
      (match jsParseInt p2 with
       | some v => v < 1900 || v > 2020
       | none => false) = false ∧
      r = padStart2 p0 ++ '/' :: padStart2 p1 ++ '/' :: p2 := by
  unfold sanitizeWith at h
  split at h
  · rename_i p0 p1 p2 heq
    split at h
    · cases h
    · rename_i hyear
      simp only [Option.some.injEq] at h
      subst h
      exact ⟨p0, p1, p2, heq, by simpa using hyear, rfl⟩
  · cases h

theorem sanitizeDob_idem {raw r : Str} (h : sanitizeDob raw = some r) :
    sanitizeDob r = some r := by
  unfold sanitizeDob at h
  obtain ⟨p0, p1, p2, hsplit, hyear, hr⟩ := sanitizeWith_eq_some h
  have hnos : '/' ∉ p0 ∧ '/' ∉ p1 ∧ '/' ∉ p2 := by
    by_cases hs : hasChar raw '/' = true
    · have hsep : dobSep raw = '/' := by simp [dobSep, hs]
      rw [hsep] at hsplit
      exact ⟨jsSplitChar_no_sep '/' raw p0 (by simp [hsplit]),
        jsSplitChar_no_sep '/' raw p1 (by simp [hsplit]),
        jsSplitChar_no_sep '/' raw p2 (by simp [hsplit])⟩
    · have hmem : '/' ∉ raw := fun hm => hs ((hasChar_iff raw '/').2 hm)
      exact ⟨fun hc => hmem (jsSplitChar_sub (dobSep raw) raw p0 (by simp [hsplit]) '/' hc),
        fun hc => hmem (jsSplitChar_sub (dobSep raw) raw p1 (by simp [hsplit]) '/' hc),
        fun hc => hmem (jsSplitChar_sub (dobSep raw) raw p2 (by simp [hsplit]) '/' hc)⟩
  obtain ⟨h0, h1, h2⟩ := hnos
  have hp0 : '/' ∉ padStart2 p0 := by
    intro hc
    rcases padStart2_mem hc with h | h
    · exact absurd h (by decide)
    · exact h0 h
  have hp1 : '/' ∉ padStart2 p1 := by
    intro hc
    rcases padStart2_mem hc with h | h
    · exact absurd h (by decide)
    · exact h1 h
  have hrs : hasChar r '/' = true := by
    rw [hr]
    exact (hasChar_iff _ _).2 (by simp)
  unfold sanitizeDob
  have hsepr : dobSep r = '/' := by simp [dobSep, hrs]
  rw [hsepr, hr]
  unfold sanitizeWith
  rw [List.append_assoc, List.cons_append]
  rw [jsSplitChar_append _ hp0, jsSplitChar_append _ hp1, jsSplitChar_of_not_mem h2]
  simp only []
  rw [if_neg (by simp [hyear]), padStart2_idem, padStart2_idem, List.append_assoc,
    List.cons_append]

/-- C4 counterexample: `parseInt` yields NaN on the non-numeric year
component "x", and the year test `y < 1900 || y > 2020` is false for
NaN, so "1/1/x" is accepted although its year component is not a year in
[1900, 2020] — the claim's "accepts only if the year component is in
[1900, 2020]" is false. -/
theorem c4_counterexample :
    sanitizeDob "1/1/x".data = some "01/01/x".data ∧ jsParseInt "x".data = none := by
  constructor <;> decide

/-- C4 (amended): the sanitizer is idempotent on its own output; it
rejects any input whose year component parses (by leading-integer parse)
to a value outside [1900, 2020], regardless of separator; and it accepts
an input only if the input splits into exactly 3 components on its
separator and the year component does not parse to a value outside
[1900, 2020] (a year whose parse fails, i.e. NaN, slips through), with
day and month zero-padded to width 2 on acceptance. -/
theorem c4_sanitizer :
    (∀ raw r : Str, sanitizeDob raw = some r → sanitizeDob r = some r) ∧
    (∀ (raw p0 p1 p2 : Str) (v : Int),
       jsSplitChar (dobSep raw) raw = [p0, p1, p2] → jsParseInt p2 = some v →
       (v < 1900 ∨ 2020 < v) → sanitizeDob raw = none) ∧
    (∀ raw r : Str, sanitizeDob raw = some r →
       ∃ p0 p1 p2, jsSplitChar (dobSep raw) raw = [p0, p1, p2] ∧
         r = padStart2 p0 ++ '/' :: padStart2 p1 ++ '/' :: p2 ∧
         ¬∃ v : Int, jsParseInt p2 = some v ∧ (v < 1900 ∨ 2020 < v)) := by
  refine ⟨fun raw r h => sanitizeDob_idem h, ?_, ?_⟩
  · intro raw p0 p1 p2 v hsplit hparse houtside
    unfold sanitizeDob sanitizeWith
    rw [hsplit]
    simp only [hparse]
    rw [if_pos (by simpa using houtside)]
  · intro raw r h
    obtain ⟨p0, p1, p2, hsplit, hyear, hr⟩ := sanitizeWith_eq_some h
    refine ⟨p0, p1, p2, hsplit, hr, ?_⟩
    rintro ⟨v, hparse, houtside⟩
    rw [hparse] at hyear
    simp at hyear
    omega

/-- C4 witness: idempotence applied to a sanitized value, and rejection
applied to an out-of-range year with '/' separator. -/
theorem c4_witness :
    sanitizeDob "05/07/1990".data = some "05/07/1990".data ∧
      sanitizeDob "1/1/2021".data = none :=
  ⟨c4_sanitizer.1 "5/7/1990".data "05/07/1990".data (by decide),
   c4_sanitizer.2.1 "1/1/2021".data "1".data "1".data "2021".data 2021
     (by decide) (by decide) (Or.inr (by decide))⟩

/-- C3: for every line whose stripped core (leading non-letters and a
trailing 1–2-digit token removed) consists only of letters, spaces and
periods, has length in [4, 50], contains no blacklisted term as a
lowercased substring, and satisfies the word condition (at least 2 words
with some token of length ≥ 3 after removing periods, or exactly one
word of length ≥ 6), the name detector accepts the line and the
formatter returns a non-empty string; a line whose stripped core
contains a blacklisted term is always rejected; the formatter
upper-cases tokens of length ≤ 2 after removing periods and
first-letter-capitalizes longer tokens; and "Balavisakan 14" is accepted
with formatted name "Balavisakan". -/
theorem c3_name_detector :
    (∀ line : Str,
       (∀ c ∈ nameCore line, isAlphaA c = true ∨ c = ' ' ∨ c = '.') →
       4 ≤ (nameCore line).length → (nameCore line).length ≤ 50 →
       (∀ b ∈ BLACKLIST, ¬(b <:+: lcStr (nameCore line))) →
       ((2 ≤ (jsSplitWs (nameCore line)).length ∧
           ∃ w ∈ jsSplitWs (nameCore line), 3 ≤ (w.filter (fun c => c != '.')).length) ∨
         (∃ w, jsSplitWs (nameCore line) = [w] ∧ 6 ≤ w.length)) →
       isName line = true ∧ smartTitle line ≠ []) ∧
    (∀ line : Str, (∃ b ∈ BLACKLIST, b <:+: lcStr (nameCore line)) →
       isName line = false) ∧
    (∀ (a : Char) (t : Str),
       (((a :: t).filter (fun d => d != '.')).length ≤ 2 →
          titleWord (a :: t) = (a :: t).map ucChar) ∧
       (2 < ((a :: t).filter (fun d => d != '.')).length →
          titleWord (a :: t) = ucChar a :: lcStr t)) ∧
    isName "Balavisakan 14".data = true ∧
    smartTitle "Balavisakan 14".data = "Balavisakan".data := by
  refine ⟨?_, ?_, ?_, by decide, by decide⟩
  · intro line hchars hlen4 hlen50 hbl hwords
    have hblack : (BLACKLIST.any fun b => jsIncludes (lcStr (nameCore line)) b) = false := by
      cases hA : BLACKLIST.any (fun b => jsIncludes (lcStr (nameCore line)) b) with
      | false => rfl
      | true =>
        obtain ⟨b, hb, hj⟩ := List.any_eq_true.mp hA
        exact absurd ((jsIncludes_iff _ _).1 hj) (hbl b hb)
    have hshape : nameShapeOk (nameCore line) = true := by
      rcases nameCore_head_alpha line with h0 | ⟨c, t, h0, hc⟩
      · rw [h0] at hlen4
        simp at hlen4
      · rw [h0]
        have ht : t ≠ [] := by
          intro hnil
          rw [h0, hnil] at hlen4
          simp at hlen4
        simp only [nameShapeOk, Bool.and_eq_true]
        refine ⟨⟨hc, by simpa using ht⟩, ?_⟩
        rw [List.all_eq_true]
        intro d hd
        have hmem : d ∈ nameCore line := by
          rw [h0]
          exact List.mem_cons_of_mem c hd
        rcases hchars d hmem with h | h | h
        · simp [h]
        · subst h; decide
        · subst h; decide
    have hname : isName line = true := by
      unfold isName
      rw [if_neg (by simp [hblack]), if_neg (by simp [hshape]),
        if_neg (by simp only [Bool.or_eq_true, decide_eq_true_eq, not_or, not_lt]; omega)]
      rcases hwords with ⟨h2, w, hw, h3⟩ | ⟨w, hw1, h6⟩
      · rw [if_pos h2]
        exact List.any_eq_true.2 ⟨w, hw, by simpa using h3⟩
      · rw [hw1]
        rw [if_neg (by simp)]
        simpa using h6
    exact ⟨hname, smartTitle_ne_nil_of_isName hname⟩
  · rintro line ⟨b, hb, hinf⟩
    unfold isName
    rw [if_pos (List.any_eq_true.2 ⟨b, hb, (jsIncludes_iff _ _).2 hinf⟩)]
  · intro a t
    constructor
    · intro hle
      simp only [titleWord]
      rw [if_pos hle]
    · intro hgt
      simp only [titleWord]
      rw [if_neg (by omega)]

/-- C3 witness: the blacklist-rejection rule applied to a line whose
stripped core is the blacklisted gender word. -/
theorem c3_witness : isName "male 1".data = false :=
  c3_name_detector.2.1 "male 1".data ⟨"male".data, by decide, by decide⟩

end OcrScanner
